import Mathlib

/-!
Verification development for the certificate-introspection utilities of this
repository (src/ssl_utils.c).  The C functions are shallowly embedded as Lean
functions; byte strings are lists of naturals (byte values 0..255), machine
unsigned arithmetic is made explicit where the C code relies on it.
-/

namespace SSLUtils

/-- Bounded output buffer, mirroring the struct buffer fields used by the
extractors: `size` is the capacity, `data` the current length, and `area` the
list of bytes written so far (the C `area` region up to offset `data`; bytes
beyond `data` are unspecified in C and dropped here).  The `size` and `data`
fields are `size_t` in C; they are modelled as naturals with 64-bit unsigned
subtraction made explicit where the C code subtracts them. -/
structure Buffer where
  size : Nat
  data : Nat
  area : List Nat
deriving DecidableEq, Repr

/-- Unsigned 64-bit subtraction on naturals below 2^64: wraps around like the
C `size_t` subtraction the GREASE filter performs on buffer fields. -/
def usub64 (a b : Nat) : Nat :=
  if b ≤ a then a - b else a + 2 ^ 64 - b

/-- Byte values of a string literal, for writing concrete inputs. -/
def bytes (s : String) : List Nat :=
  s.toList.map Char.toNat

/-- Embedding of `ssl_sock_get_serial`: the certificate is represented by its
serial field, `none` when `X509_get_serialNumber` yields no serial, otherwise
the raw big-endian bytes of the ASN1_INTEGER. -/
def ssl_sock_get_serial (serial : Option (List Nat)) (out : Buffer) : Int × Buffer :=
  match serial with
  | none => (0, out)
  | some s =>
    if out.size < s.length then (-1, out)
    else (1, { out with area := s, data := s.length })

/-- Embedding of `ssl_sock_crt2der`: the certificate is represented by the
result of `i2d_X509`, namely the reported length `len` (an int, possibly
non-positive on encoder failure) and the DER bytes `der` that a successful
second call writes.  Note the C code returns 1, not 0, when `len <= 0`. -/
def ssl_sock_crt2der (len : Int) (der : List Nat) (out : Buffer) : Int × Buffer :=
  if len ≤ 0 then (1, out)
  else if (out.size : Int) < len then (-1, out)
  else (1, { out with area := der, data := len.toNat })

/-- Loop of `exclude_tls_grease`: walks the input two bytes at a time
(`while (ptr < len - 1)`), copying a pair unless its two bytes are equal and
the low nibble of the first is 0xA; a pair is copied only when
`output->data <= output->size - 2` holds in `size_t` arithmetic, otherwise the
loop breaks.  Returns the updated buffer and the unconsumed suffix of the
input (the bytes from `ptr` on). -/
def greaseLoop : List Nat → Buffer → Buffer × List Nat
  | a :: b :: rest, out =>
    if a ≠ b ∨ a % 16 ≠ 10 then
      if out.data ≤ usub64 out.size 2 then
        greaseLoop rest ⟨out.size, out.data + 2, out.area ++ [a, b]⟩
      else (out, a :: b :: rest)
    else greaseLoop rest out
  | l, out => (out, l)

/-- Embedding of `exclude_tls_grease`: after the pair loop, the trailing byte
at `ptr` is appended whenever `output->size - output->data > 0` (again a
`size_t` subtraction) and `len - ptr > 0`. -/
def exclude_tls_grease (input : List Nat) (out : Buffer) : Buffer :=
  let r := greaseLoop input out
  match r.2 with
  | c :: _ =>
    if 0 < usub64 r.1.size r.1.data then
      ⟨r.1.size, r.1.data + 1, r.1.area ++ [c]⟩
    else r.1
  | [] => r.1

/-- Pairs kept by the GREASE filter, as the spec words it: drop every pair
whose two bytes are equal and whose low nibble of the first byte is 0xA, keep
all other pairs in order (the odd trailing byte is not part of any pair). -/
def greasePairs : List Nat → List Nat
  | a :: b :: rest =>
    if a = b ∧ a % 16 = 10 then greasePairs rest else a :: b :: greasePairs rest
  | _ => []

/-- The unpaired trailing byte of the input, `[]` when the length is even. -/
def greaseTail : List Nat → List Nat
  | _ :: _ :: rest => greaseTail rest
  | l => l

/-- ASN.1 tag value V_ASN1_UTCTIME from the external OpenSSL headers. -/
def V_ASN1_UTCTIME : Int := 23

/-- ASN.1 tag value V_ASN1_GENERALIZEDTIME from the external OpenSSL headers. -/
def V_ASN1_GENERALIZEDTIME : Int := 24

/-- An ASN1_TIME value: its tag and its payload bytes (`length` is the list
length). -/
structure ASN1Time where
  type : Int
  tdata : List Nat
deriving DecidableEq, Repr

/-- Embedding of `ssl_sock_get_time`: generalized time needs length ≥ 12 and
leading bytes 0x32 0x30, and is copied without the first two bytes; UTC time
needs length ≥ 10 and a first byte below 0x35, and is copied verbatim; other
tags give 0, and an accepted value that does not fit gives -1. -/
def ssl_sock_get_time (tm : ASN1Time) (out : Buffer) : Int × Buffer :=
  if tm.type = V_ASN1_GENERALIZEDTIME then
    if tm.tdata.length < 12 then (0, out)
    else if ¬ (tm.tdata.getD 0 0 = 0x32 ∧ tm.tdata.getD 1 0 = 0x30) then (0, out)
    else if out.size < tm.tdata.length - 2 then (-1, out)
    else (1, { out with area := tm.tdata.drop 2, data := tm.tdata.length - 2 })
  else if tm.type = V_ASN1_UTCTIME then
    if tm.tdata.length < 10 then (0, out)
    else if 0x35 ≤ tm.tdata.getD 0 0 then (0, out)
    else if out.size < tm.tdata.length then (-1, out)
    else (1, { out with area := tm.tdata, data := tm.tdata.length })
  else (0, out)

/-- A generalized-time value is accepted: length at least 12 and the first two
bytes are ASCII 2 and 0. -/
def genAccepted (tm : ASN1Time) : Prop :=
  tm.type = V_ASN1_GENERALIZEDTIME ∧ 12 ≤ tm.tdata.length ∧
    tm.tdata.getD 0 0 = 0x32 ∧ tm.tdata.getD 1 0 = 0x30

/-- A UTC-time value is accepted: length at least 10 and the first byte is
below ASCII 5. -/
def utcAccepted (tm : ASN1Time) : Prop :=
  tm.type = V_ASN1_UTCTIME ∧ 10 ≤ tm.tdata.length ∧ tm.tdata.getD 0 0 < 0x35

instance (tm : ASN1Time) : Decidable (genAccepted tm) := by
  unfold genAccepted; infer_instance

instance (tm : ASN1Time) : Decidable (utcAccepted tm) := by
  unfold utcAccepted; infer_instance

/-- Unsigned 64-bit value of an int expression, as the C conversion of an
`int` result into an `unsigned long` variable produces. -/
def u64i (x : Int) : Nat := (x % (2 ^ 64 : Int)).toNat

/-- Reinterpretation of an unsigned 64-bit value as a signed `long`. -/
def toLong (n : Nat) : Int := if n < 2 ^ 63 then (n : Int) else (n : Int) - 2 ^ 64

/-- Cumulative days before each month, as in `asn1_generalizedtime_to_epoch`. -/
def month_offset : List Nat := [0, 31, 59, 90, 120, 151, 181, 212, 243, 273, 304, 334]

/-- Fractional-second skipper of `asn1_generalizedtime_to_epoch`: called on
the bytes after the dot, it consumes the digit run; reaching the end of the
data (`++p == end` inside the do-while) is a parse failure. -/
def fracSkip : List Nat → Option (List Nat)
  | [] => none
  | c :: rest => if 48 ≤ c ∧ c ≤ 57 then fracSkip rest else some (c :: rest)

/-- Timezone suffix handling of `asn1_generalizedtime_to_epoch`: a lone `Z`
returns the epoch unchanged; `+HHMM` and `-HHMM` must be exactly five bytes
and subtract resp. add `((10*(p[1]-48)+p[2]-48)*60*60 + (10*(p[3]-48)+p[4]-48))*60`
(the parenthesisation of the source, which multiplies the hour term by
60*60*60 in total); anything else is -1. -/
def tzApply (epoch : Int) (l : List Nat) : Int :=
  match l with
  | [90] => epoch
  | [43, o1, o2, o3, o4] =>
      epoch - ((10 * ((o1 : Int) - 48) + ((o2 : Int) - 48)) * 60 * 60 +
        (10 * ((o3 : Int) - 48) + ((o4 : Int) - 48))) * 60
  | [45, o1, o2, o3, o4] =>
      epoch + ((10 * ((o1 : Int) - 48) + ((o2 : Int) - 48)) * 60 * 60 +
        (10 * ((o3 : Int) - 48) + ((o4 : Int) - 48))) * 60
  | _ => -1

/-- Embedding of `asn1_generalizedtime_to_epoch`.  The `year` and `month`
accumulators are `unsigned long` in C and are modelled modulo 2^64; the date
arithmetic up to the day-granularity epoch is carried out in that unsigned
domain (with the wrap-around of `year - 1970` made explicit) and then
reinterpreted as a signed `long`.  The later additions are `long`/`int`
arithmetic on values far below 2^63 and are modelled exactly on `Int`.  The
NULL-pointer check on the argument is outside the model (a value is always
passed). -/
def asn1_generalizedtime_to_epoch (d : ASN1Time) : Int :=
  if d.type ≠ V_ASN1_GENERALIZEDTIME then -1
  else
    match d.tdata with
    | y1 :: y2 :: y3 :: y4 :: rest1 =>
      let year : Nat := u64i (1000 * ((y1 : Int) - 48) + 100 * ((y2 : Int) - 48) +
        10 * ((y3 : Int) - 48) + ((y4 : Int) - 48))
      match rest1 with
      | m1 :: m2 :: rest2 =>
        let month : Nat := u64i (10 * ((m1 : Int) - 48) + ((m2 : Int) - 48))
        if month < 1 ∨ 12 < month then -1
        else
          let yadj := usub64 year (if month < 3 then 1 else 0)
          let leap := yadj / 4 - yadj / 100 + yadj / 400
          let t1 := usub64 year 1970 * 365 % 2 ^ 64
          let t2 := (t1 + leap) % 2 ^ 64
          let t3 := usub64 t2 (1969 / 4 - 1969 / 100 + 1969 / 400)
          let t4 := (t3 + month_offset.getD (month - 1) 0) % 2 ^ 64
          let epoch0 := toLong (t4 * (24 * 60 * 60) % 2 ^ 64)
          match rest2 with
          | d1 :: d2 :: rest3 =>
            let epoch1 := epoch0 +
              (10 * ((d1 : Int) - 48) + ((d2 : Int) - 48) - 1) * (24 * 60 * 60)
            match rest3 with
            | h1 :: h2 :: rest4 =>
              let epoch2 := epoch1 +
                (10 * ((h1 : Int) - 48) + ((h2 : Int) - 48)) * (60 * 60)
              match rest4 with
              | mi1 :: mi2 :: rest5 =>
                let epoch3 := epoch2 +
                  (10 * ((mi1 : Int) - 48) + ((mi2 : Int) - 48)) * 60
                match rest5 with
                | [] => -1
                | c1 :: rest6 =>
                  if c1 < 48 ∨ 57 < c1 then tzApply epoch3 (c1 :: rest6)
                  else
                    match rest6 with
                    | [] => -1
                    | c2 :: rest7 =>
                      let epoch4 := epoch3 +
                        (10 * ((c1 : Int) - 48) + ((c2 : Int) - 48))
                      match rest7 with
                      | [] => -1
                      | e1 :: rest8 =>
                        if e1 = 46 then
                          match fracSkip rest8 with
                          | none => -1
                          | some l => tzApply epoch4 l
                        else tzApply epoch4 (e1 :: rest8)
              | _ => -1
            | _ => -1
          | _ => -1
      | _ => -1
    | _ => -1

/-- Decimal digit test on a byte value. -/
def isDigitB (c : Nat) : Bool := decide (48 ≤ c ∧ c ≤ 57)

/-- C locale whitespace, as `strtol` skips it. -/
def isSpaceB (c : Nat) : Bool := decide (c = 32 ∨ (9 ≤ c ∧ c ≤ 13))

/-- Digit-run accumulator of `strtol`: consumes leading decimal digits,
returning the value and the rest of the string. -/
def parseDigits : Nat → List Nat → Nat × List Nat
  | acc, c :: cs => if isDigitB c then parseDigits (acc * 10 + (c - 48)) cs else (acc, c :: cs)
  | acc, [] => (acc, [])

/-- Body of the `strtol` model after whitespace skipping: `orig` is the
original pointer, returned as the end pointer when no conversion is
performed. -/
def strtolCore (orig l : List Nat) : Int × List Nat :=
  match l with
  | [] => (0, orig)
  | c :: rest =>
    if c = 43 then
      if isDigitB (rest.headD 0) then
        (((parseDigits 0 rest).1 : Int), (parseDigits 0 rest).2)
      else (0, orig)
    else if c = 45 then
      if isDigitB (rest.headD 0) then
        (-((parseDigits 0 rest).1 : Int), (parseDigits 0 rest).2)
      else (0, orig)
    else if isDigitB c then
      (((parseDigits 0 (c :: rest)).1 : Int), (parseDigits 0 (c :: rest)).2)
    else (0, orig)

/-- Model of `strtol(p, &end, 10)` from libc (an external collaborator):
skips whitespace, takes an optional sign and a decimal digit run; when no
digits are present it returns 0 with the end pointer equal to the original
pointer.  The clamping of out-of-range values at LONG_MAX/LONG_MIN is not
modelled; every numeral the version parser accepts fits its 4- or 8-bit
field check far below that range. -/
def strtol10 (s : List Nat) : Int × List Nat :=
  strtolCore s (s.dropWhile isSpaceB)

/-- Unsigned 32-bit value of a long expression, as the C conversion of a
`long` into an `unsigned int` variable produces. -/
def u32 (x : Int) : Nat := (x % (2 ^ 32 : Int)).toNat

/-- The C expression `c & ~0x20` on a promoted character: clears bit 5. -/
def upperMask (c : Nat) : Nat := c - 32 * (c / 32 % 2)

/-- Patch accumulation loop of the version parser: starting from `patch = 1`
it adds `(*p & ~0x20) - 65` for every remaining character, in `unsigned int`
arithmetic (the subtraction may be negative as an int and wraps modulo
2^32). -/
def patchLoop : Nat → List Nat → Nat
  | patch, [] => patch
  | patch, c :: cs => patchLoop ((patch + upperMask c + 2 ^ 32 - 65) % 2 ^ 32) cs

/-- The `strncmp(p, "beta", 4) == 0` test: the next four bytes are
`b`, `e`, `t`, `a` (a shorter string fails on its terminator). -/
def startsWithBeta : List Nat → Bool
  | 98 :: 101 :: 116 :: 97 :: _ => true
  | _ => false

/-- The MNNFFPPS packing of the version parser:
`((major & 0xf) << 28) | ((minor & 0xff) << 20) | ((fix & 0xff) << 12) |
((patch & 0xff) << 4) | (status & 0xf)`; the fields occupy disjoint bit
ranges, so the bitwise ORs of the source are written as sums of the masked
fields times their shift. -/
def packVersion (major minor fix patch status : Nat) : Nat :=
  major % 16 * 2 ^ 28 + minor % 256 * 2 ^ 20 + fix % 256 * 2 ^ 12 +
    patch % 256 * 2 ^ 4 + status % 16

/-- Embedding of the OpenSSL version-string parser of src/ssl_utils.c
(lines 369-429; the source name carries a parser suffix that the naming
conventions here shorten).  Parses `MAJOR.MINOR.FIX`; end of string means a
release (status 0xf); a hyphen suffix only increments status for `beta<N>`
(N at most 14), every other hyphen suffix is a dev build left with status 0
and patch 0; a suffix without hyphen is a patch release accumulating
letters into the patch field with status 0xf.  Field overflow or a missing
dot yields 0. -/
def openssl_version_parse (version : List Nat) : Nat :=
  if version = [] then 0
  else
    let r1 := strtol10 version
    let major := u32 r1.1
    if r1.2.headD 0 = 46 ∧ major ≤ 0xf then
      let r2 := strtol10 r1.2.tail
      let minor := u32 r2.1
      if r2.2.headD 0 = 46 ∧ minor ≤ 0xff then
        let r3 := strtol10 r2.2.tail
        let fix := u32 r3.1
        if fix ≤ 0xff then
          let p := r3.2
          if p = [] then packVersion major minor fix 0 0xf
          else if p.headD 0 = 45 then
            if startsWithBeta p.tail then
              let status := u32 (strtol10 (p.tail.drop 4)).1
              if status ≤ 14 then packVersion major minor fix 0 status else 0
            else packVersion major minor fix 0 0
          else packVersion major minor fix (patchLoop 1 p) 0xf
        else 0
      else 0
    else 0

/-- Decimal numeral of a natural number, most significant digit first, as a
byte list; used to quantify over well-formed version strings. -/
def natChars (n : Nat) : List Nat :=
  if h : n < 10 then [48 + n]
  else natChars (n / 10) ++ [48 + n % 10]
termination_by n
decreasing_by
  exact Nat.div_lt_self (by omega) (by decide)

/-- A distinguished-name entry as `ssl_sock_get_dn_entry` sees it: `dname` is
the attribute name text the code obtains from the external accessors (the
short name of the NID, or the dotted OID rendered as text when there is
none), `value` the raw bytes of the entry data. -/
structure DNEntry where
  dname : List Nat
  value : List Nat
deriving DecidableEq, Repr

/-- ASCII lowercasing of one byte, as `tolower` in the C locale. -/
def lowerB (c : Nat) : Nat := if 65 ≤ c ∧ c ≤ 90 then c + 32 else c

/-- Equality test of `chunk_strcasecmp(entry, s) == 0` (external helper):
the strings agree up to ASCII case. -/
def strCaseEq (a b : List Nat) : Bool := decide (a.map lowerB = b.map lowerB)

/-- Loop of `ssl_sock_get_dn_entry` over the entries in iteration order
(already reversed by the caller when `pos < 0`): `cur` is decremented on a
match for negative `pos` and incremented otherwise; when it reaches `pos`
the entry value is copied, unless it exceeds the capacity (-1). -/
def dnLoop (entry : List Nat) (pos : Int) : List DNEntry → Int → Buffer → Int × Buffer
  | [], _, out => (0, out)
  | e :: rest, cur, out =>
    if strCaseEq entry e.dname = false then dnLoop entry pos rest cur out
    else
      let cur' := if pos < 0 then cur - 1 else cur + 1
      if cur' ≠ pos then dnLoop entry pos rest cur' out
      else if out.size < e.value.length then (-1, out)
      else (1, { out with area := e.value, data := e.value.length })

/-- Embedding of `ssl_sock_get_dn_entry`: `out->data` is zeroed first; for
`pos < 0` the index `j = (name_count-1) - i` walks the entries in reverse
order, otherwise forward. -/
def ssl_sock_get_dn_entry (a : List DNEntry) (entry : List Nat) (pos : Int)
    (out : Buffer) : Int × Buffer :=
  dnLoop entry pos (if pos < 0 then a.reverse else a) 0 ⟨out.size, 0, []⟩

/-- Entry of the verification-error-code table after initialization: the
resolved integer code (-1 when the macro is absent from the build) and the
constant name.  Modelled from the spec: the numeric codes are resolved at
init by stringifying macros of the external library headers, which are not
under src/; the standard OpenSSL 3.x assignments are used, under which every
entry of the source table resolves, to the consecutive codes 0..94. -/
structure VErrEntry where
  code : Int
  vname : String
deriving DecidableEq, Repr

/-- The x509_v_codes table of the source, in source order, as
`init_x509_v_err_tab` leaves it under the standard OpenSSL 3.x values; the
terminating null sentinel of the C array bounds the scan and is not part of
the list. -/
def x509_v_codes : List VErrEntry := [
  VErrEntry.mk 0 "X509_V_OK",
  VErrEntry.mk 1 "X509_V_ERR_UNSPECIFIED",
  VErrEntry.mk 2 "X509_V_ERR_UNABLE_TO_GET_ISSUER_CERT",
  VErrEntry.mk 3 "X509_V_ERR_UNABLE_TO_GET_CRL",
  VErrEntry.mk 4 "X509_V_ERR_UNABLE_TO_DECRYPT_CERT_SIGNATURE",
  VErrEntry.mk 5 "X509_V_ERR_UNABLE_TO_DECRYPT_CRL_SIGNATURE",
  VErrEntry.mk 6 "X509_V_ERR_UNABLE_TO_DECODE_ISSUER_PUBLIC_KEY",
  VErrEntry.mk 7 "X509_V_ERR_CERT_SIGNATURE_FAILURE",
  VErrEntry.mk 8 "X509_V_ERR_CRL_SIGNATURE_FAILURE",
  VErrEntry.mk 9 "X509_V_ERR_CERT_NOT_YET_VALID",
  VErrEntry.mk 10 "X509_V_ERR_CERT_HAS_EXPIRED",
  VErrEntry.mk 11 "X509_V_ERR_CRL_NOT_YET_VALID",
  VErrEntry.mk 12 "X509_V_ERR_CRL_HAS_EXPIRED",
  VErrEntry.mk 13 "X509_V_ERR_ERROR_IN_CERT_NOT_BEFORE_FIELD",
  VErrEntry.mk 14 "X509_V_ERR_ERROR_IN_CERT_NOT_AFTER_FIELD",
  VErrEntry.mk 15 "X509_V_ERR_ERROR_IN_CRL_LAST_UPDATE_FIELD",
  VErrEntry.mk 16 "X509_V_ERR_ERROR_IN_CRL_NEXT_UPDATE_FIELD",
  VErrEntry.mk 17 "X509_V_ERR_OUT_OF_MEM",
  VErrEntry.mk 18 "X509_V_ERR_DEPTH_ZERO_SELF_SIGNED_CERT",
  VErrEntry.mk 19 "X509_V_ERR_SELF_SIGNED_CERT_IN_CHAIN",
  VErrEntry.mk 20 "X509_V_ERR_UNABLE_TO_GET_ISSUER_CERT_LOCALLY",
  VErrEntry.mk 21 "X509_V_ERR_UNABLE_TO_VERIFY_LEAF_SIGNATURE",
  VErrEntry.mk 22 "X509_V_ERR_CERT_CHAIN_TOO_LONG",
  VErrEntry.mk 23 "X509_V_ERR_CERT_REVOKED",
  VErrEntry.mk 24 "X509_V_ERR_NO_ISSUER_PUBLIC_KEY",
  VErrEntry.mk 25 "X509_V_ERR_PATH_LENGTH_EXCEEDED",
  VErrEntry.mk 26 "X509_V_ERR_INVALID_PURPOSE",
  VErrEntry.mk 27 "X509_V_ERR_CERT_UNTRUSTED",
  VErrEntry.mk 28 "X509_V_ERR_CERT_REJECTED",
  VErrEntry.mk 29 "X509_V_ERR_SUBJECT_ISSUER_MISMATCH",
  VErrEntry.mk 30 "X509_V_ERR_AKID_SKID_MISMATCH",
  VErrEntry.mk 31 "X509_V_ERR_AKID_ISSUER_SERIAL_MISMATCH",
  VErrEntry.mk 32 "X509_V_ERR_KEYUSAGE_NO_CERTSIGN",
  VErrEntry.mk 33 "X509_V_ERR_UNABLE_TO_GET_CRL_ISSUER",
  VErrEntry.mk 34 "X509_V_ERR_UNHANDLED_CRITICAL_EXTENSION",
  VErrEntry.mk 35 "X509_V_ERR_KEYUSAGE_NO_CRL_SIGN",
  VErrEntry.mk 36 "X509_V_ERR_UNHANDLED_CRITICAL_CRL_EXTENSION",
  VErrEntry.mk 37 "X509_V_ERR_INVALID_NON_CA",
  VErrEntry.mk 38 "X509_V_ERR_PROXY_PATH_LENGTH_EXCEEDED",
  VErrEntry.mk 39 "X509_V_ERR_KEYUSAGE_NO_DIGITAL_SIGNATURE",
  VErrEntry.mk 40 "X509_V_ERR_PROXY_CERTIFICATES_NOT_ALLOWED",
  VErrEntry.mk 41 "X509_V_ERR_INVALID_EXTENSION",
  VErrEntry.mk 42 "X509_V_ERR_INVALID_POLICY_EXTENSION",
  VErrEntry.mk 43 "X509_V_ERR_NO_EXPLICIT_POLICY",
  VErrEntry.mk 44 "X509_V_ERR_DIFFERENT_CRL_SCOPE",
  VErrEntry.mk 45 "X509_V_ERR_UNSUPPORTED_EXTENSION_FEATURE",
  VErrEntry.mk 46 "X509_V_ERR_UNNESTED_RESOURCE",
  VErrEntry.mk 47 "X509_V_ERR_PERMITTED_VIOLATION",
  VErrEntry.mk 48 "X509_V_ERR_EXCLUDED_VIOLATION",
  VErrEntry.mk 49 "X509_V_ERR_SUBTREE_MINMAX",
  VErrEntry.mk 50 "X509_V_ERR_APPLICATION_VERIFICATION",
  VErrEntry.mk 51 "X509_V_ERR_UNSUPPORTED_CONSTRAINT_TYPE",
  VErrEntry.mk 52 "X509_V_ERR_UNSUPPORTED_CONSTRAINT_SYNTAX",
  VErrEntry.mk 53 "X509_V_ERR_UNSUPPORTED_NAME_SYNTAX",
  VErrEntry.mk 54 "X509_V_ERR_CRL_PATH_VALIDATION_ERROR",
  VErrEntry.mk 55 "X509_V_ERR_PATH_LOOP",
  VErrEntry.mk 56 "X509_V_ERR_SUITE_B_INVALID_VERSION",
  VErrEntry.mk 57 "X509_V_ERR_SUITE_B_INVALID_ALGORITHM",
  VErrEntry.mk 58 "X509_V_ERR_SUITE_B_INVALID_CURVE",
  VErrEntry.mk 59 "X509_V_ERR_SUITE_B_INVALID_SIGNATURE_ALGORITHM",
  VErrEntry.mk 60 "X509_V_ERR_SUITE_B_LOS_NOT_ALLOWED",
  VErrEntry.mk 61 "X509_V_ERR_SUITE_B_CANNOT_SIGN_P_384_WITH_P_256",
  VErrEntry.mk 62 "X509_V_ERR_HOSTNAME_MISMATCH",
  VErrEntry.mk 63 "X509_V_ERR_EMAIL_MISMATCH",
  VErrEntry.mk 64 "X509_V_ERR_IP_ADDRESS_MISMATCH",
  VErrEntry.mk 65 "X509_V_ERR_DANE_NO_MATCH",
  VErrEntry.mk 66 "X509_V_ERR_EE_KEY_TOO_SMALL",
  VErrEntry.mk 67 "X509_V_ERR_CA_KEY_TOO_SMALL",
  VErrEntry.mk 68 "X509_V_ERR_CA_MD_TOO_WEAK",
  VErrEntry.mk 69 "X509_V_ERR_INVALID_CALL",
  VErrEntry.mk 70 "X509_V_ERR_STORE_LOOKUP",
  VErrEntry.mk 71 "X509_V_ERR_NO_VALID_SCTS",
  VErrEntry.mk 72 "X509_V_ERR_PROXY_SUBJECT_NAME_VIOLATION",
  VErrEntry.mk 73 "X509_V_ERR_OCSP_VERIFY_NEEDED",
  VErrEntry.mk 74 "X509_V_ERR_OCSP_VERIFY_FAILED",
  VErrEntry.mk 75 "X509_V_ERR_OCSP_CERT_UNKNOWN",
  VErrEntry.mk 76 "X509_V_ERR_UNSUPPORTED_SIGNATURE_ALGORITHM",
  VErrEntry.mk 77 "X509_V_ERR_SIGNATURE_ALGORITHM_MISMATCH",
  VErrEntry.mk 78 "X509_V_ERR_SIGNATURE_ALGORITHM_INCONSISTENCY",
  VErrEntry.mk 79 "X509_V_ERR_INVALID_CA",
  VErrEntry.mk 80 "X509_V_ERR_PATHLEN_INVALID_FOR_NON_CA",
  VErrEntry.mk 81 "X509_V_ERR_PATHLEN_WITHOUT_KU_KEY_CERT_SIGN",
  VErrEntry.mk 82 "X509_V_ERR_KU_KEY_CERT_SIGN_INVALID_FOR_NON_CA",
  VErrEntry.mk 83 "X509_V_ERR_ISSUER_NAME_EMPTY",
  VErrEntry.mk 84 "X509_V_ERR_SUBJECT_NAME_EMPTY",
  VErrEntry.mk 85 "X509_V_ERR_MISSING_AUTHORITY_KEY_IDENTIFIER",
  VErrEntry.mk 86 "X509_V_ERR_MISSING_SUBJECT_KEY_IDENTIFIER",
  VErrEntry.mk 87 "X509_V_ERR_EMPTY_SUBJECT_ALT_NAME",
  VErrEntry.mk 88 "X509_V_ERR_EMPTY_SUBJECT_SAN_NOT_CRITICAL",
  VErrEntry.mk 89 "X509_V_ERR_CA_BCONS_NOT_CRITICAL",
  VErrEntry.mk 90 "X509_V_ERR_AUTHORITY_KEY_IDENTIFIER_CRITICAL",
  VErrEntry.mk 91 "X509_V_ERR_SUBJECT_KEY_IDENTIFIER_CRITICAL",
  VErrEntry.mk 92 "X509_V_ERR_CA_CERT_MISSING_KEY_USAGE",
  VErrEntry.mk 93 "X509_V_ERR_EXTENSIONS_REQUIRE_VERSION_3",
  VErrEntry.mk 94 "X509_V_ERR_EC_KEY_EXPLICIT_PARAMS"
]

/-- Scan of `x509_v_err_str_to_int`: the first entry whose name is
`strcmp`-equal to the query yields its code; exhaustion yields -1. -/
def strToIntScan (s : String) : List VErrEntry → Int
  | [] => -1
  | e :: rest => if e.vname = s then e.code else strToIntScan s rest

/-- Embedding of `x509_v_err_str_to_int`. -/
def x509_v_err_str_to_int (s : String) : Int := strToIntScan s x509_v_codes

/-- Scan of `x509_v_err_int_to_str`: the first entry with the queried code
yields its name. -/
def intToStrScan (c : Int) : List VErrEntry → Option String
  | [] => none
  | e :: rest => if e.code = c then some e.vname else intToStrScan c rest

/-- Embedding of `x509_v_err_int_to_str`: a query of -1 is rejected before
the scan (NULL, here `none`). -/
def x509_v_err_int_to_str (c : Int) : Option String :=
  if c = -1 then none else intToStrScan c x509_v_codes

/-- Loop of `ssl_sock_get_verified_chain_root` over the certificate stack:
`crt` holds the most recently visited certificate (NULL before the first
iteration); the loop breaks at the first entry whose issuer check against
itself succeeds (`X509_check_issued(crt, crt) == X509_V_OK`, with X509_V_OK
= 0), otherwise it runs off the end leaving `crt` at the last entry.  The
issuer check is the external `X509_check_issued`, passed as a function
argument. -/
def chainRootLoop {α : Type} (issued : α → α → Int) : List α → Option α → Option α
  | [], crt => crt
  | c :: rest, _ => if issued c c = 0 then some c else chainRootLoop issued rest (some c)

/-- Embedding of `ssl_sock_get_verified_chain_root`: `chain` is the result
of `SSL_get0_verified_chain`, `none` when the chain is unavailable. -/
def ssl_sock_get_verified_chain_root {α : Type} (issued : α → α → Int)
    (chain : Option (List α)) : Option α :=
  match chain with
  | none => none
  | some certs => chainRootLoop issued certs none

theorem greasePairs_cons_drop {a b : Nat} {rest : List Nat}
    (h : a = b ∧ a % 16 = 10) : greasePairs (a :: b :: rest) = greasePairs rest := by
  rw [greasePairs, if_pos h]

theorem greasePairs_cons_keep {a b : Nat} {rest : List Nat}
    (h : ¬ (a = b ∧ a % 16 = 10)) :
    greasePairs (a :: b :: rest) = a :: b :: greasePairs rest := by
  rw [greasePairs, if_neg h]

theorem greaseTail_cons (a b : Nat) (rest : List Nat) :
    greaseTail (a :: b :: rest) = greaseTail rest := rfl

theorem greaseTail_nil_or_single : ∀ bs : List Nat,
    greaseTail bs = [] ∨ ∃ x, greaseTail bs = [x]
  | [] => Or.inl rfl
  | [x] => Or.inr ⟨x, rfl⟩
  | _ :: _ :: rest => greaseTail_nil_or_single rest

theorem greasePairs_tail_length : ∀ bs : List Nat,
    (greasePairs bs).length + (greaseTail bs).length ≤ bs.length
  | [] => by simp [greasePairs, greaseTail]
  | [x] => by simp [greasePairs, greaseTail]
  | a :: b :: rest => by
    have ih := greasePairs_tail_length rest
    by_cases h : a = b ∧ a % 16 = 10
    · rw [greasePairs_cons_drop h, greaseTail_cons]
      simp only [List.length_cons]
      omega
    · rw [greasePairs_cons_keep h, greaseTail_cons]
      simp only [List.length_cons]
      omega

theorem greaseLoop_sufficient : ∀ (bs : List Nat) (out : Buffer),
    out.data = out.area.length → out.data + bs.length ≤ out.size →
    greaseLoop bs out =
      (⟨out.size, out.data + (greasePairs bs).length, out.area ++ greasePairs bs⟩,
        greaseTail bs)
  | [], out, h1, h2 => by simp [greaseLoop, greasePairs, greaseTail]
  | [a], out, h1, h2 => by simp [greaseLoop, greasePairs, greaseTail]
  | a :: b :: rest, out, h1, h2 => by
    simp only [List.length_cons] at h2
    by_cases hg : a = b ∧ a % 16 = 10
    · have ih := greaseLoop_sufficient rest out h1 (by omega)
      have hcond : ¬ (a ≠ b ∨ a % 16 ≠ 10) := by
        push_neg
        exact ⟨hg.1, hg.2⟩
      rw [greaseLoop, if_neg hcond, ih, greasePairs_cons_drop hg, greaseTail_cons]
    · have hcond : a ≠ b ∨ a % 16 ≠ 10 := by
        rcases Decidable.not_and_iff_or_not.mp hg with h | h
        · exact Or.inl h
        · exact Or.inr h
      have hsub : usub64 out.size 2 = out.size - 2 := by
        unfold usub64
        rw [if_pos (by omega)]
      have hfit : out.data ≤ usub64 out.size 2 := by omega
      have ih := greaseLoop_sufficient rest ⟨out.size, out.data + 2, out.area ++ [a, b]⟩
        (by simp [h1]) (by simp; omega)
      rw [greaseLoop, if_pos hcond, if_pos hfit, ih, greasePairs_cons_keep hg,
        greaseTail_cons]
      simp
      omega

/-- C1: for a certificate whose serial field exists with raw byte length L and
an output buffer of capacity C, `ssl_sock_get_serial` returns 1 with
`data = L` and the serial bytes in `area` iff C ≥ L, returns -1 iff C < L,
and returns 0 when the certificate has no serial field. -/
theorem claim_C1_serial : ∀ (bs : List Nat) (out : Buffer),
    ssl_sock_get_serial none out = (0, out) ∧
    ((ssl_sock_get_serial (some bs) out).1 = 1 ↔ bs.length ≤ out.size) ∧
    ((ssl_sock_get_serial (some bs) out).1 = -1 ↔ out.size < bs.length) ∧
    (bs.length ≤ out.size →
      ssl_sock_get_serial (some bs) out =
        (1, { out with area := bs, data := bs.length })) := by
  intro bs out
  by_cases h : out.size < bs.length <;>
    refine ⟨rfl, ?_, ?_, ?_⟩ <;>
      (simp [ssl_sock_get_serial, h]; try omega)

theorem claim_C1_serial_witness :
    ([1, 2] : List Nat).length ≤ (3 : Nat) ∧
    ssl_sock_get_serial (some [1, 2]) ⟨3, 0, []⟩ = (1, ⟨3, 2, [1, 2]⟩) :=
  ⟨by decide, (claim_C1_serial [1, 2] ⟨3, 0, []⟩).2.2.2 (by decide)⟩

/-- C2: the bounded-buffer invariant `data ≤ size` fails on the code: with an
output buffer of capacity 0 (initially `data = 0 ≤ size`) and the non-GREASE
input pair `[0x00, 0x01]`, `exclude_tls_grease` takes the `size_t`
subtraction `output->size - 2` around zero, copies the pair anyway, and
returns with `data = 2 > size = 0`. -/
theorem claim_C2_grease_invariant_broken :
    (exclude_tls_grease [0, 1] ⟨0, 0, []⟩).data = 2 ∧
    (exclude_tls_grease [0, 1] ⟨0, 0, []⟩).size = 0 ∧
    (exclude_tls_grease [0, 1] ⟨1, 0, []⟩).data = 2 ∧
    (exclude_tls_grease [0, 1] ⟨1, 0, []⟩).size = 1 := by
  decide

/-- C3: when the DER encoder reports a non-positive length, the code returns
1, not the 0 the claim (and the function comment in the source) specifies. -/
theorem claim_C3_crt2der_encoder_failure :
    (ssl_sock_crt2der (-1) [] ⟨16, 0, []⟩).1 = 1 ∧
    (ssl_sock_crt2der 0 [] ⟨16, 0, []⟩).1 = 1 := by
  decide

/-- C7: on a buffer of sufficient capacity the GREASE filter keeps exactly the
non-GREASE pairs in order (a pair is dropped iff its bytes are equal with low
nibble 0xA on the first) and copies an odd trailing byte through; in
particular `[0x0A,0x0A,0x00,0x01]` yields `[0x00,0x01]` and `[0x1A,0x1B]` is
retained unchanged. -/
theorem claim_C7_grease_filter : ∀ (bs : List Nat) (out : Buffer),
    out.data = 0 → out.area = [] → bs.length ≤ out.size →
    (exclude_tls_grease bs out =
      ⟨out.size, (greasePairs bs ++ greaseTail bs).length,
        greasePairs bs ++ greaseTail bs⟩) ∧
    exclude_tls_grease [10, 10, 0, 1] ⟨4, 0, []⟩ = ⟨4, 2, [0, 1]⟩ ∧
    exclude_tls_grease [26, 27] ⟨2, 0, []⟩ = ⟨2, 2, [26, 27]⟩ := by
  intro bs out h0 harea hsize
  refine ⟨?_, by decide, by decide⟩
  have hloop := greaseLoop_sufficient bs out (by rw [h0, harea]; rfl)
    (by omega)
  have hlen := greasePairs_tail_length bs
  unfold exclude_tls_grease
  rw [hloop]
  rcases greaseTail_nil_or_single bs with ht | ⟨x, ht⟩
  · simp [ht, h0, harea]
  · have hlt : out.data + (greasePairs bs).length < out.size := by
      rw [ht] at hlen
      simp at hlen
      omega
    have hpos : 0 < usub64 out.size (out.data + (greasePairs bs).length) := by
      unfold usub64
      rw [if_pos (by omega)]
      omega
    simp only [ht]
    rw [if_pos hpos]
    simp [h0, harea]

/-- C5: `ssl_sock_get_time` accepts a generalized time iff its length is at
least 12 with first bytes ASCII 2, 0, returning the payload after those two
bytes with `data = length - 2`; accepts a UTC time iff its length is at least
10 with first byte below ASCII 5, copied verbatim; any other tag or a short
length returns 0, and an accepted value that does not fit the buffer returns
-1. -/
theorem claim_C5_get_time : ∀ (tm : ASN1Time) (out : Buffer),
    ((ssl_sock_get_time tm out).1 = 1 ↔
      (genAccepted tm ∧ tm.tdata.length - 2 ≤ out.size) ∨
      (utcAccepted tm ∧ tm.tdata.length ≤ out.size)) ∧
    ((ssl_sock_get_time tm out).1 = -1 ↔
      (genAccepted tm ∧ out.size < tm.tdata.length - 2) ∨
      (utcAccepted tm ∧ out.size < tm.tdata.length)) ∧
    ((ssl_sock_get_time tm out).1 = 0 ↔ ¬ genAccepted tm ∧ ¬ utcAccepted tm) ∧
    (genAccepted tm → tm.tdata.length - 2 ≤ out.size →
      ssl_sock_get_time tm out =
        (1, { out with area := tm.tdata.drop 2, data := tm.tdata.length - 2 })) ∧
    (utcAccepted tm → tm.tdata.length ≤ out.size →
      ssl_sock_get_time tm out =
        (1, { out with area := tm.tdata, data := tm.tdata.length })) := by
  intro tm out
  have htag : ¬ (V_ASN1_GENERALIZEDTIME = V_ASN1_UTCTIME) := by decide
  unfold ssl_sock_get_time genAccepted utcAccepted
  unfold V_ASN1_UTCTIME V_ASN1_GENERALIZEDTIME at *
  by_cases h1 : tm.type = 24 <;> by_cases h2 : tm.type = 23 <;>
    simp only [h1, h2, if_true, if_false, reduceIte] <;>
      first
        | (split_ifs <;> simp_all <;> omega)
        | simp_all

theorem claim_C5_get_time_witness :
    genAccepted ⟨24, bytes "20230115123045Z"⟩ ∧
    (bytes "20230115123045Z").length - 2 ≤ (20 : Nat) ∧
    ssl_sock_get_time ⟨24, bytes "20230115123045Z"⟩ ⟨20, 0, []⟩ =
      (1, ⟨20, 13, bytes "230115123045Z"⟩) :=
  ⟨by decide, by decide,
    (claim_C5_get_time ⟨24, bytes "20230115123045Z"⟩ ⟨20, 0, []⟩).2.2.2.1
      (by decide) (by decide)⟩

/-- C6: the code maps "20230115123045Z" to 1673785845 and the malformed month
"20231315000000Z" to -1 as the claim states, but for "20230115123045+0100" it
subtracts ((1*60*60)+0)*60 = 216000 seconds, not the 3600 seconds the claim
requires. -/
theorem claim_C6_generalizedtime_epoch :
    asn1_generalizedtime_to_epoch ⟨24, bytes "20230115123045Z"⟩ = 1673785845 ∧
    asn1_generalizedtime_to_epoch ⟨24, bytes "20230115123045+0100"⟩ = 1673569845 ∧
    (1673569845 : Int) ≠ 1673785845 - 3600 ∧
    asn1_generalizedtime_to_epoch ⟨24, bytes "20231315000000Z"⟩ = -1 := by
  decide

theorem natChars_shape (n : Nat) :
    ∃ c cs, natChars n = c :: cs ∧ 48 ≤ c ∧ c ≤ 57 := by
  induction n using Nat.strong_induction_on with
  | _ n ih =>
    unfold natChars
    by_cases h : n < 10
    · rw [dif_pos h]
      exact ⟨48 + n, [], rfl, by omega, by omega⟩
    · rw [dif_neg h]
      obtain ⟨c, cs, hc, h1, h2⟩ := ih (n / 10) (Nat.div_lt_self (by omega) (by decide))
      exact ⟨c, cs ++ [48 + n % 10], by rw [hc]; rfl, h1, h2⟩

theorem parseDigits_cons_digit {c : Nat} (hd : isDigitB c = true)
    (a : Nat) (l : List Nat) :
    parseDigits a (c :: l) = parseDigits (a * 10 + (c - 48)) l := by
  rw [parseDigits, if_pos hd]

theorem parseDigits_natChars (n : Nat) : ∀ (a : Nat) (rest : List Nat),
    parseDigits a (natChars n ++ rest) =
      parseDigits (a * 10 ^ (natChars n).length + n) rest := by
  induction n using Nat.strong_induction_on with
  | _ n ih =>
    intro a rest
    by_cases h : n < 10
    · have hn : natChars n = [48 + n] := by
        unfold natChars
        rw [dif_pos h]
      have hd : isDigitB (48 + n) = true := by
        simp [isDigitB]
        omega
      rw [hn, List.cons_append, List.nil_append, parseDigits_cons_digit hd]
      congr 1
      simp
    · have hn : natChars n = natChars (n / 10) ++ [48 + n % 10] := by
        conv_lhs => unfold natChars
        rw [dif_neg h]
      have hlt : n / 10 < n := Nat.div_lt_self (by omega) (by decide)
      have hd : isDigitB (48 + n % 10) = true := by
        simp [isDigitB]
        omega
      rw [hn, List.append_assoc,
        show ([48 + n % 10] : List Nat) ++ rest = (48 + n % 10) :: rest from rfl,
        ih (n / 10) hlt a, parseDigits_cons_digit hd]
      have hL : (natChars (n / 10) ++ [48 + n % 10]).length =
          (natChars (n / 10)).length + 1 := by simp
      rw [hL, pow_succ, ← mul_assoc]
      congr 1
      generalize a * 10 ^ (natChars (n / 10)).length = t
      omega

theorem parseDigits_stop {l : List Nat} (h : isDigitB (l.headD 0) = false)
    (a : Nat) : parseDigits a l = (a, l) := by
  cases l with
  | nil => rfl
  | cons c cs =>
    rw [List.headD_cons] at h
    rw [parseDigits, if_neg (by simp [h])]

theorem strtol10_natChars (n : Nat) (rest : List Nat)
    (h : isDigitB (rest.headD 0) = false) :
    strtol10 (natChars n ++ rest) = ((n : Int), rest) := by
  obtain ⟨c, cs, hc, h1, h2⟩ := natChars_shape n
  have hcons : natChars n ++ rest = c :: (cs ++ rest) := by
    rw [hc, List.cons_append]
  have hsp : isSpaceB c = false := by
    simp [isSpaceB]
    omega
  have hdig : isDigitB c = true := by
    simp [isDigitB]
    omega
  have hdrop : (natChars n ++ rest).dropWhile isSpaceB = c :: (cs ++ rest) := by
    rw [hcons, List.dropWhile_cons_of_neg (by simp [hsp])]
  rw [strtol10, hdrop, strtolCore, if_neg (by omega), if_neg (by omega),
    if_pos hdig, ← hcons, parseDigits_natChars, Nat.zero_mul, Nat.zero_add,
    parseDigits_stop h]

theorem u32_ofNat {m : Nat} (h : m < 2 ^ 32) : u32 (m : Int) = m := by
  unfold u32
  omega

/-- C4 counterexample: on "3.0.0-alpha17" — a hyphen suffix not starting with
beta — the parser yields 0x30000000 (the dev-build example of the source
comment): its status nibble is 0, not the 0xF the claim asserts. -/
theorem claim_C4_counterexample :
    openssl_version_parse (bytes "3.0.0-alpha17") = 0x30000000 ∧
    openssl_version_parse (bytes "3.0.0-alpha17") % 16 ≠ 0xf := by
  decide

/-- C4 amended: for every version string `MAJOR.MINOR.FIX-<suffix>` whose
suffix does not begin with "beta" (and whose numeric fields pass their width
checks), the parser treats the build as a development version: the patch
field and the status nibble of the packed result are both 0 — the
patch-accumulation rule of the spec applies only to suffixes appended
without a hyphen. -/
theorem claim_C4_dev_suffix : ∀ (major minor fix : Nat) (suffix : List Nat),
    major ≤ 0xf → minor ≤ 0xff → fix ≤ 0xff → startsWithBeta suffix = false →
    openssl_version_parse
        (natChars major ++ 46 :: (natChars minor ++ 46 :: (natChars fix ++ 45 :: suffix)))
      = packVersion major minor fix 0 0 ∧
    packVersion major minor fix 0 0 % 2 ^ 4 = 0 ∧
    packVersion major minor fix 0 0 / 2 ^ 4 % 2 ^ 8 = 0 := by
  intro major minor fix suffix hmaj hmin hfix hbeta
  have hr1 := strtol10_natChars major
    (46 :: (natChars minor ++ 46 :: (natChars fix ++ 45 :: suffix)))
    (by rw [List.headD_cons]; decide)
  have hr2 := strtol10_natChars minor (46 :: (natChars fix ++ 45 :: suffix))
    (by rw [List.headD_cons]; decide)
  have hr3 := strtol10_natChars fix (45 :: suffix) (by rw [List.headD_cons]; decide)
  have hne : natChars major ++ 46 ::
      (natChars minor ++ 46 :: (natChars fix ++ 45 :: suffix)) ≠ [] := by
    obtain ⟨c, cs, hc, -, -⟩ := natChars_shape major
    rw [hc]
    simp
  constructor
  · have e1 : u32 ((major : Nat) : Int) = major := u32_ofNat (by omega)
    have e2 : u32 ((minor : Nat) : Int) = minor := u32_ofNat (by omega)
    have e3 : u32 ((fix : Nat) : Int) = fix := u32_ofNat (by omega)
    rw [openssl_version_parse, if_neg hne]
    simp only [hr1, hr2, hr3, List.headD_cons, List.tail_cons, e1, e2, e3]
    simp [hmaj, hmin, hfix, hbeta]
  · unfold packVersion
    omega

theorem claim_C4_dev_suffix_witness :
    startsWithBeta (bytes "alpha17") = false ∧
    openssl_version_parse
        (natChars 3 ++ 46 :: (natChars 0 ++ 46 :: (natChars 0 ++ 45 :: bytes "alpha17")))
      = packVersion 3 0 0 0 0 :=
  ⟨by decide,
    (claim_C4_dev_suffix 3 0 0 (bytes "alpha17") (by decide) (by decide) (by decide)
      (by decide)).1⟩

theorem dnLoop_neg_spec : ∀ (es : List DNEntry) (entry : List Nat)
    (pos cur : Int) (out : Buffer), pos < 0 → cur ≤ 0 → pos < cur →
    (((cur - pos).toNat - 1) < (es.filter fun e => strCaseEq entry e.dname).length →
      (((es.filter fun e => strCaseEq entry e.dname).getD ((cur - pos).toNat - 1)
          ⟨[], []⟩).value.length ≤ out.size →
        dnLoop entry pos es cur out =
          (1, { out with
            area := ((es.filter fun e => strCaseEq entry e.dname).getD
              ((cur - pos).toNat - 1) ⟨[], []⟩).value,
            data := ((es.filter fun e => strCaseEq entry e.dname).getD
              ((cur - pos).toNat - 1) ⟨[], []⟩).value.length })) ∧
      (out.size < ((es.filter fun e => strCaseEq entry e.dname).getD
          ((cur - pos).toNat - 1) ⟨[], []⟩).value.length →
        (dnLoop entry pos es cur out).1 = -1)) ∧
    ((es.filter fun e => strCaseEq entry e.dname).length ≤ (cur - pos).toNat - 1 →
      dnLoop entry pos es cur out = (0, out))
  | [], entry, pos, cur, out, hpos, hcur, hlt => by
    constructor
    · intro hk
      simp at hk
    · intro _
      rfl
  | e :: rest, entry, pos, cur, out, hpos, hcur, hlt => by
    by_cases hm : strCaseEq entry e.dname = false
    · have ih := dnLoop_neg_spec rest entry pos cur out hpos hcur hlt
      rw [dnLoop, if_pos hm]
      simpa [List.filter_cons, hm] using ih
    · have hmt : strCaseEq entry e.dname = true := by
        revert hm
        cases strCaseEq entry e.dname <;> simp
      have hfil : ((e :: rest).filter fun x => strCaseEq entry x.dname) =
          e :: (rest.filter fun x => strCaseEq entry x.dname) := by
        rw [List.filter_cons, if_pos (by simp [hmt])]
      rw [dnLoop, if_neg hm]
      simp only [if_pos hpos, hfil]
      by_cases hsel : cur - 1 = pos
      · have hk0 : (cur - pos).toNat - 1 = 0 := by omega
        rw [if_neg (by omega)]
        constructor
        · intro _
          rw [hk0]
          simp only [List.getD_cons_zero]
          constructor
          · intro hle
            rw [if_neg (by omega)]
          · intro hgt
            rw [if_pos (by simpa using hgt)]
        · intro hlen
          simp at hlen
          omega
      · have hrec : cur - 1 ≠ pos := hsel
        rw [if_pos (by omega)]
        have ih := dnLoop_neg_spec rest entry pos (cur - 1) out hpos (by omega) (by omega)
        have hk : (cur - pos).toNat - 1 = ((cur - 1 - pos).toNat - 1) + 1 := by omega
        rw [hk]
        simp only [List.getD_cons_succ, List.length_cons]
        constructor
        · intro hkk
          exact ih.1 (by omega)
        · intro hlen
          exact ih.2 (by omega)

/-- C8: for a negative occurrence index, `ssl_sock_get_dn_entry` walks the
name in reverse and selects the |pos|-th case-insensitive match counting
from the end (pos = -1 is the last match); it returns 0 when fewer matches
exist and -1 when the matched value is longer than the buffer capacity. -/
theorem claim_C8_dn_entry_negative : ∀ (a : List DNEntry) (entry : List Nat)
    (pos : Int) (out : Buffer), pos < 0 →
    (((-pos).toNat - 1) < (a.reverse.filter fun e => strCaseEq entry e.dname).length →
      (((a.reverse.filter fun e => strCaseEq entry e.dname).getD ((-pos).toNat - 1)
          ⟨[], []⟩).value.length ≤ out.size →
        ssl_sock_get_dn_entry a entry pos out =
          (1, ⟨out.size,
            ((a.reverse.filter fun e => strCaseEq entry e.dname).getD
              ((-pos).toNat - 1) ⟨[], []⟩).value.length,
            ((a.reverse.filter fun e => strCaseEq entry e.dname).getD
              ((-pos).toNat - 1) ⟨[], []⟩).value⟩)) ∧
      (out.size < ((a.reverse.filter fun e => strCaseEq entry e.dname).getD
          ((-pos).toNat - 1) ⟨[], []⟩).value.length →
        (ssl_sock_get_dn_entry a entry pos out).1 = -1)) ∧
    ((a.reverse.filter fun e => strCaseEq entry e.dname).length ≤ (-pos).toNat - 1 →
      ssl_sock_get_dn_entry a entry pos out = (0, ⟨out.size, 0, []⟩)) := by
  intro a entry pos out hpos
  have h := dnLoop_neg_spec a.reverse entry pos 0 ⟨out.size, 0, []⟩ hpos le_rfl hpos
  have hz : (0 - pos).toNat - 1 = (-pos).toNat - 1 := by omega
  rw [hz] at h
  unfold ssl_sock_get_dn_entry
  rw [if_pos hpos]
  exact h

theorem claim_C8_dn_entry_negative_witness :
    (-1 : Int) < 0 ∧
    ssl_sock_get_dn_entry
        [⟨bytes "CN", bytes "first"⟩, ⟨bytes "O", bytes "org"⟩, ⟨bytes "CN", bytes "last"⟩]
        (bytes "cn") (-1) ⟨8, 0, []⟩ =
      (1, ⟨8, 4, bytes "last"⟩) := by
  refine ⟨by decide, ?_⟩
  have h := ((claim_C8_dn_entry_negative
    [⟨bytes "CN", bytes "first"⟩, ⟨bytes "O", bytes "org"⟩, ⟨bytes "CN", bytes "last"⟩]
    (bytes "cn") (-1) ⟨8, 0, []⟩ (by decide)).1 (by decide)).1 (by decide)
  exact h

theorem strToIntScan_mem : ∀ (tbl : List VErrEntry) (e : VErrEntry),
    e ∈ tbl → (tbl.map VErrEntry.vname).Nodup → strToIntScan e.vname tbl = e.code
  | [], e, he, _ => absurd he (List.not_mem_nil e)
  | t :: rest, e, he, hnd => by
    rw [List.map_cons, List.nodup_cons] at hnd
    rcases List.mem_cons.mp he with rfl | hmem
    · rw [strToIntScan, if_pos rfl]
    · have hne : t.vname ≠ e.vname := by
        intro hEq
        have hin : e.vname ∈ rest.map VErrEntry.vname :=
          List.mem_map_of_mem _ hmem
        rw [← hEq] at hin
        exact hnd.1 hin
      rw [strToIntScan, if_neg hne, strToIntScan_mem rest e hmem hnd.2]

theorem intToStrScan_mem : ∀ (tbl : List VErrEntry) (e : VErrEntry),
    e ∈ tbl → (tbl.map VErrEntry.code).Nodup → intToStrScan e.code tbl = some e.vname
  | [], e, he, _ => absurd he (List.not_mem_nil e)
  | t :: rest, e, he, hnd => by
    rw [List.map_cons, List.nodup_cons] at hnd
    rcases List.mem_cons.mp he with rfl | hmem
    · rw [intToStrScan, if_pos rfl]
    · have hne : t.code ≠ e.code := by
        intro hEq
        have hin : e.code ∈ rest.map VErrEntry.code :=
          List.mem_map_of_mem _ hmem
        rw [← hEq] at hin
        exact hnd.1 hin
      rw [intToStrScan, if_neg hne, intToStrScan_mem rest e hmem hnd.2]

/-- C9: for every table entry whose code resolved at init (code not -1),
looking the name up with `x509_v_err_str_to_int` and mapping the code back
with `x509_v_err_int_to_str` returns the original name; and a reverse lookup
of -1 always returns the not-found result. -/
theorem claim_C9_verr_roundtrip :
    (∀ e ∈ x509_v_codes, e.code ≠ -1 →
      x509_v_err_int_to_str (x509_v_err_str_to_int e.vname) = some e.vname) ∧
    x509_v_err_int_to_str (-1) = none := by
  constructor
  · intro e he hcode
    have hnames : (x509_v_codes.map VErrEntry.vname).Nodup := by decide
    have hcodes : (x509_v_codes.map VErrEntry.code).Nodup := by decide
    rw [x509_v_err_str_to_int, strToIntScan_mem _ e he hnames,
      x509_v_err_int_to_str, if_neg hcode, intToStrScan_mem _ e he hcodes]
  · rfl

theorem claim_C9_verr_roundtrip_witness :
    (VErrEntry.mk 23 "X509_V_ERR_CERT_REVOKED" : VErrEntry) ∈ x509_v_codes ∧
    x509_v_err_int_to_str (x509_v_err_str_to_int "X509_V_ERR_CERT_REVOKED") =
      some "X509_V_ERR_CERT_REVOKED" :=
  ⟨by decide,
    claim_C9_verr_roundtrip.1 (VErrEntry.mk 23 "X509_V_ERR_CERT_REVOKED")
      (by decide) (by decide)⟩

theorem chainRootLoop_no_self {α : Type} (issued : α → α → Int) :
    ∀ (certs : List α) (acc : Option α) (hne : certs ≠ []),
    (∀ c ∈ certs, issued c c ≠ 0) →
    chainRootLoop issued certs acc = some (certs.getLast hne)
  | [], _, hne, _ => absurd rfl hne
  | [c], acc, hne, h => by
    rw [chainRootLoop, if_neg (h c (by simp))]
    rfl
  | c1 :: c2 :: rest, acc, hne, h => by
    rw [chainRootLoop, if_neg (h c1 (by simp)),
      chainRootLoop_no_self issued (c2 :: rest) (some c1) (by simp)
        (fun c hc => h c (List.mem_cons_of_mem _ hc))]
    exact congrArg some (List.getLast_cons (by simp)).symm

theorem chainRootLoop_eq_none {α : Type} (issued : α → α → Int) :
    ∀ (certs : List α) (acc : Option α),
    chainRootLoop issued certs acc = none → certs = [] ∧ acc = none
  | [], acc, h => ⟨rfl, h⟩
  | c :: rest, acc, h => by
    rw [chainRootLoop] at h
    by_cases hc : issued c c = 0
    · rw [if_pos hc] at h
      exact absurd h (by simp)
    · rw [if_neg hc] at h
      have := chainRootLoop_eq_none issued rest (some c) h
      exact absurd this.2 (by simp)

/-- C10: on a non-empty verified chain none of whose entries passes the
self-issued check, `ssl_sock_get_verified_chain_root` returns the last
certificate of the chain; it returns the not-found result (NULL) exactly
when the chain is unavailable or empty. -/
theorem claim_C10_chain_root : ∀ {α : Type} (issued : α → α → Int)
    (certs : List α) (hne : certs ≠ []),
    ((∀ c ∈ certs, issued c c ≠ 0) →
      ssl_sock_get_verified_chain_root issued (some certs) =
        some (certs.getLast hne)) ∧
    ssl_sock_get_verified_chain_root issued none = none ∧
    ssl_sock_get_verified_chain_root issued (some ([] : List α)) = none ∧
    ssl_sock_get_verified_chain_root issued (some certs) ≠ none := by
  intro α issued certs hne
  refine ⟨fun h => chainRootLoop_no_self issued certs none hne h, rfl, rfl, ?_⟩
  intro hnone
  exact hne (chainRootLoop_eq_none issued certs none hnone).1

theorem claim_C10_chain_root_witness :
    ([1, 2, 3] : List Nat) ≠ [] ∧
    (∀ c ∈ ([1, 2, 3] : List Nat), (fun _ _ => (1 : Int)) c c ≠ 0) ∧
    ssl_sock_get_verified_chain_root (fun _ _ => (1 : Int))
      (some [1, 2, 3]) = some 3 := by
  refine ⟨by simp, by decide, ?_⟩
  exact (claim_C10_chain_root (fun _ _ => (1 : Int)) [1, 2, 3] (by simp)).1 (by decide)

theorem claim_C7_grease_filter_witness :
    ([10, 10, 0, 1] : List Nat).length ≤ 4 ∧
    exclude_tls_grease [10, 10, 0, 1] ⟨4, 0, []⟩ =
      ⟨4, (greasePairs [10, 10, 0, 1] ++ greaseTail [10, 10, 0, 1]).length,
        greasePairs [10, 10, 0, 1] ++ greaseTail [10, 10, 0, 1]⟩ :=
  ⟨by decide, (claim_C7_grease_filter [10, 10, 0, 1] ⟨4, 0, []⟩ rfl rfl (by decide)).1⟩
